import Mathlib

/-!
# Verification of the kamailio_exporter stats pipeline

A shallow embedding of `statscollector.go` from
`jklingenmeyer/kamailio_exporter`, together with theorems settling the
frozen claims about its specification.

The embedding models:
* the transport selection of `execRPCCommand` (domain socket vs TCP);
* the two fetchers `fetchStats` and `fetchPKGMemStats`, parametrised by
  the outcome of the RPC invocation (the binrpc library is an external
  collaborator: a successful invocation yields a list of records, each of
  which either decodes to a list of key/value items via `StructItems` or
  fails to);
* the metric translators `produceMetrics` (static catalog),
  `convertScriptedMetrics` (dynamic `script.` keys) and
  `producePKGMemMetrics` (per-process memory gauges).

Machine floats only ever carry integral decimal values in the claims under
study, so `strconv.ParseFloat` is modelled on integral decimal strings
(where the conversion is exact) with every other string outside the
modelled domain.  Constant labels are attached uniformly to every
descriptor by `initMetrics` and are irrelevant to every claim, so they are
omitted from descriptors.
-/

/-- Models `strings.HasPrefix` (byte-wise in Go; character-wise here,
equivalent for the ASCII literals this program uses). -/
def goHasPre (s pre : String) : Bool :=
  pre.data.isPrefixOf s.data

/-- Models `strings.HasSuffix` (byte-wise in Go; character-wise here,
equivalent for the ASCII literals this program uses). -/
def goHasSuf (s suf : String) : Bool :=
  suf.data.isSuffixOf s.data

/-- Models `strings.TrimPrefix`: drop `pre` from the front of `s` when it
is a prefix, otherwise return `s` unchanged. -/
def goTrimPre (s pre : String) : String :=
  if goHasPre s pre then ⟨s.data.drop pre.data.length⟩ else s

/-- Models `strings.ToLower` (ASCII-accurate, which covers every string
the claims exercise). -/
def goToLower (s : String) : String :=
  ⟨s.data.map Char.toLower⟩

/-- Models `strconv.Itoa` on the result of a binrpc integer decode. -/
def goItoa (n : Int) : String :=
  toString n

/-- Numeric value of a list of decimal digit characters. -/
def digitsToNat (ds : List Char) : Nat :=
  ds.foldl (fun n c => n * 10 + (c.toNat - 48)) 0

/-- Models `strconv.ParseFloat` restricted to integral decimal strings
(an optional minus sign followed by one or more ASCII digits), the only
values this program produces and consumes in the claims under study; the
conversion is exact there.  Other strings are outside the modelled domain
and fail. -/
def parseGoFloat (s : String) : Option Int :=
  match s.data with
  | [] => none
  | '-' :: ds =>
    if ds ≠ [] ∧ ds.all Char.isDigit then some (-(digitsToNat ds : Int)) else none
  | ds =>
    if ds.all Char.isDigit then some (digitsToNat ds : Int) else none

/-- A value carried by a binrpc struct item.  The wire declares a scalar
type (integer or string); non-scalar wire values (e.g. nested structs)
convert to neither scalar, which `structVal` models.  The typed accessors
`Int()`/`String()` of the library succeed only on the matching scalar
type. -/
inductive WireValue where
  | int (n : Int)
  | str (s : String)
  | structVal
deriving DecidableEq

/-- Models the binrpc `Value.Int()` accessor: `some` on success, `none`
when the library reports a conversion error. -/
def WireValue.asInt : WireValue → Option Int
  | .int n => some n
  | _ => none

/-- Models the binrpc `Value.String()` accessor: `some` on success, `none`
when the library reports a conversion error (in Go the accompanying string
result is then the zero value `""`). -/
def WireValue.asString : WireValue → Option String
  | .str s => some s
  | _ => none

/-- One key/value item of a decoded binrpc struct record. -/
structure Item where
  key : String
  value : WireValue
deriving DecidableEq

/-- A record returned by `binrpc.ReadPacket`.  `StructItems()` either
decodes it into a list of items or fails; on failure Go returns
`(nil, err)`, and both fetchers discard the error, so the record
contributes an empty item list. -/
structure Record where
  structItems : Option (List Item)
deriving DecidableEq

/-- The flat stat map built by `fetchStats`: association list with Go-map
insertion semantics (`lookupStat`/`insertStat` below). -/
abbrev FlatStatMap := List (String × String)

/-- Go map read `m[k]`. -/
def lookupStat (m : FlatStatMap) (k : String) : Option String :=
  (m.find? (fun p => p.1 = k)).map Prod.snd

/-- Go map write `m[k] = v`: overwrite the binding if present, else add
it. -/
def insertStat : FlatStatMap → String → String → FlatStatMap
  | [], k, v => [(k, v)]
  | (k', v') :: rest, k, v =>
    if k' = k then (k, v) :: rest else (k', v') :: insertStat rest k v

/-- Remove every binding of key `k` (used to state that a key contributes
nothing to the emitted metrics). -/
def eraseKey (m : FlatStatMap) (k : String) : FlatStatMap :=
  m.filter (fun p => p.1 ≠ k)

/-! ## Transport selection (`execRPCCommand`, lines 216–229) -/

/-- The configuration fields of the collector that decide the transport. -/
structure StatsCollector where
  socketPath : String
  kamailioHost : String
  kamailioPort : Int
deriving DecidableEq

/-- The connection target `execRPCCommand` dials. -/
inductive DialTarget where
  | unixSocket (path : String)
  | tcpAddress (address : String)
deriving DecidableEq

/-- Embeds the connection establishment of `execRPCCommand`: when the
configured host is the empty string, dial the unix domain socket at
`socketPath`; otherwise dial TCP at `fmt.Sprintf("%s:%d", host, port)`. -/
def StatsCollector.dialTarget (c : StatsCollector) : DialTarget :=
  if c.kamailioHost = "" then
    .unixSocket c.socketPath
  else
    .tcpAddress (c.kamailioHost ++ ":" ++ toString c.kamailioPort)

/-! ## `fetchStats` (lines 308–329)

Both fetchers are parametrised by the outcome of `execRPCCommand`
(`Except.error` models a transport or packet-decode failure there,
`Except.ok` a successfully decoded record list). -/

/-- Outcome of a Go function that can additionally abort by a runtime
panic; `crash` models such a panic (here: index out of range). -/
inductive FetchResult (α : Type) where
  | ok (value : α)
  | err (e : String)
  | crash
deriving DecidableEq

/-- The loop body of `fetchStats`: for each item of the first record,
`value, _ := item.Value.String()` (the zero value `""` on conversion
failure, the error being discarded) followed by the unconditional map
write `result[item.Key] = value`. -/
def buildStatMap (items : List Item) : FlatStatMap :=
  items.foldl (fun m it => insertStat m it.key ((it.value.asString).getD "")) []

/-- Embeds `fetchStats`: propagate an RPC error; otherwise access
`records[0]` — a Go runtime panic when the record list is empty — and
build the flat map from its struct items (`items, _ :=
records[0].StructItems()` discards the decode error, leaving `nil`
items). -/
def fetchStats (rpc : Except String (List Record)) : FetchResult FlatStatMap :=
  match rpc with
  | .error e => .err e
  | .ok [] => .crash
  | .ok (r :: _) => .ok (buildStatMap (r.structItems.getD []))

/-! ## `fetchPKGMemStats` (lines 258–304) -/

/-- Models the Go struct `MemoryEntry`; fields keep their Go zero value
`""` until set from a recognized item. -/
structure MemoryEntry where
  entry : String
  pid : String
  rank : String
  used : String
  free : String
  realUsed : String
  totalSize : String
  totalFrags : String
deriving DecidableEq

/-- The freshly allocated `MemoryEntry{}` of the Go loop: every field is
the zero value `""`. -/
def emptyMemoryEntry : MemoryEntry :=
  ⟨"", "", "", "", "", "", "", ""⟩

/-- The wire keys recognized by the `switch` of `fetchPKGMemStats`. -/
def memFieldKeys : List String :=
  ["entry", "pid", "rank", "used", "free", "real_used", "total_size", "total_frags"]

/-- Observation helper: the `MemoryEntry` field stored under a recognized
wire key. -/
def getField (m : MemoryEntry) : String → String
  | "entry" => m.entry
  | "pid" => m.pid
  | "rank" => m.rank
  | "used" => m.used
  | "free" => m.free
  | "real_used" => m.realUsed
  | "total_size" => m.totalSize
  | "total_frags" => m.totalFrags
  | _ => ""

/-- The inner loop body of `fetchPKGMemStats`: convert the item value via
`Int()` (on error `continue`, skipping the item), render it with
`strconv.Itoa` and store it under the matching field; the `switch`
ignores unrecognized keys. -/
def applyMemItem (m : MemoryEntry) (it : Item) : MemoryEntry :=
  match it.value.asInt with
  | none => m
  | some n =>
    let value := goItoa n
    match it.key with
    | "entry" => { m with entry := value }
    | "pid" => { m with pid := value }
    | "rank" => { m with rank := value }
    | "used" => { m with used := value }
    | "free" => { m with free := value }
    | "real_used" => { m with realUsed := value }
    | "total_size" => { m with totalSize := value }
    | "total_frags" => { m with totalFrags := value }
    | _ => m

/-- One iteration of the outer record loop: `items, _ :=
record.StructItems()` (decode error discarded, `nil` items) folded over a
fresh `MemoryEntry{}`. -/
def processRecord (r : Record) : MemoryEntry :=
  (r.structItems.getD []).foldl applyMemItem emptyMemoryEntry

/-- Embeds `fetchPKGMemStats`: propagate an RPC error; otherwise the Go
loop appends one processed entry per record. -/
def fetchPKGMemStats (rpc : Except String (List Record)) :
    Except String (List MemoryEntry) :=
  match rpc with
  | .error e => .error e
  | .ok records => .ok (records.map processRecord)

/-! ## Metric model

`prometheus.Desc`/`NewConstMetric` belong to the external metrics
library; they are modelled from the spec's sink contract: a descriptor is
(name, help, ordered label names) and sample emission fails closed only
when the supplied label-value count does not match the descriptor's label
schema.  Constant labels are uniform and omitted (see header). -/

/-- A metric descriptor as created by `prometheus.NewDesc`. -/
structure Desc where
  fqName : String
  help : String
  variableLabels : List String
deriving DecidableEq

/-- `prometheus.ValueType`: the two kinds used by this program. -/
inductive ValueType where
  | counter
  | gauge
deriving DecidableEq

/-- A metric sample as handed to the metric channel by
`prometheus.NewConstMetric`. -/
structure Metric where
  desc : Desc
  valueType : ValueType
  value : Int
  labelValues : List String
deriving DecidableEq

/-! The descriptors created by `initMetrics` (lines 29–133). -/

def core_request_total : Desc :=
  ⟨"kamailio_core_request_total", "Request counters", ["method"]⟩

def core_rcv_request_total : Desc :=
  ⟨"kamailio_core_rcv_request_total", "Received requests by method", ["method"]⟩

def core_reply_total : Desc :=
  ⟨"kamailio_core_reply_total", "Reply counters", ["type"]⟩

def core_rcv_reply_total : Desc :=
  ⟨"kamailio_core_rcv_reply_total", "Received replies by code", ["code"]⟩

def shmem_bytes : Desc :=
  ⟨"kamailio_shm_bytes", "Shared memory sizes", ["type"]⟩

def shmem_fragments : Desc :=
  ⟨"kamailio_shm_fragments", "Shared memory fragment count", []⟩

def pkgmem_bytes : Desc :=
  ⟨"kamailio_pkg_bytes", "Private memory", ["index", "pid", "rank", "type"]⟩

def dns_failed : Desc :=
  ⟨"kamailio_dns_failed_request_total", "Failed dns requests", []⟩

def bad_uri : Desc :=
  ⟨"kamailio_bad_uri_total", "Messages with bad uri", []⟩

def bad_msg_hdr : Desc :=
  ⟨"kamailio_bad_msg_hdr", "Messages with bad message header", []⟩

def sl_reply_total : Desc :=
  ⟨"kamailio_sl_reply_total", "Stateless replies by code", ["code"]⟩

def sl_type_total : Desc :=
  ⟨"kamailio_sl_type_total", "Stateless replies by type", ["type"]⟩

def tcp_total : Desc :=
  ⟨"kamailio_tcp_total", "TCP connection counters", ["type"]⟩

def tcp_connections : Desc :=
  ⟨"kamailio_tcp_connections", "Opened TCP connections", []⟩

def tcp_writequeue : Desc :=
  ⟨"kamailio_tcp_writequeue", "TCP write queue size", []⟩

def tmx_code_total : Desc :=
  ⟨"kamailio_tmx_code_total", "Completed Transaction counters by code", ["code"]⟩

def tmx_type_total : Desc :=
  ⟨"kamailio_tmx_type_total", "Completed Transaction counters by type", ["type"]⟩

def tmx : Desc :=
  ⟨"kamailio_tmx", "Ongoing Transactions", ["type"]⟩

def tmx_rpl_total : Desc :=
  ⟨"kamailio_tmx_rpl_total", "Tmx reply counters", ["type"]⟩

def dialog : Desc :=
  ⟨"kamailio_dialog", "Ongoing Dialogs", ["type"]⟩

/-- Embeds `convertStatToMetric` (lines 532–565): look up the stat key
(absent keys are skipped), parse the value as a float (failures are
skipped), and emit one sample via `NewConstMetric`, which fails closed on
a label-count mismatch. -/
def convertStatToMetric (completeStatMap : FlatStatMap) (statKey : String)
    (optionalLabelValue : String) (metricDescription : Desc)
    (valueType : ValueType) : List Metric :=
  let labelValues := if optionalLabelValue ≠ "" then [optionalLabelValue] else []
  match lookupStat completeStatMap statKey with
  | none => []
  | some valueAsString =>
    match parseGoFloat valueAsString with
    | none => []
    | some value =>
      if labelValues.length = metricDescription.variableLabels.length then
        [⟨metricDescription, valueType, value, labelValues⟩]
      else
        []

/-- One line of the stat-to-metric table inside `produceMetrics`. -/
structure CatalogEntry where
  statKey : String
  labelValue : String
  desc : Desc
  valueType : ValueType
deriving DecidableEq

/-- Chunk of the static stat-to-metric table (see `statCatalog`). -/
def statCatalogA : List CatalogEntry := [
  ⟨"core.drop_requests", "drop", core_request_total, .counter⟩,
  ⟨"core.err_requests", "err", core_request_total, .counter⟩,
  ⟨"core.fwd_requests", "fwd", core_request_total, .counter⟩,
  ⟨"core.rcv_requests", "rcv", core_request_total, .counter⟩,
  ⟨"core.rcv_requests_ack", "ack", core_rcv_request_total, .counter⟩,
  ⟨"core.rcv_requests_bye", "bye", core_rcv_request_total, .counter⟩,
  ⟨"core.rcv_requests_cancel", "cancel", core_rcv_request_total, .counter⟩,
  ⟨"core.rcv_requests_info", "info", core_rcv_request_total, .counter⟩,
  ⟨"core.rcv_requests_invite", "invite", core_rcv_request_total, .counter⟩,
  ⟨"core.rcv_requests_message", "message", core_rcv_request_total, .counter⟩,
  ⟨"core.rcv_requests_notify", "notify", core_rcv_request_total, .counter⟩,
  ⟨"core.rcv_requests_options", "options", core_rcv_request_total, .counter⟩,
  ⟨"core.rcv_requests_prack", "prack", core_rcv_request_total, .counter⟩,
  ⟨"core.rcv_requests_publish", "publish", core_rcv_request_total, .counter⟩,
  ⟨"core.rcv_requests_refer", "refer", core_rcv_request_total, .counter⟩,
  ⟨"core.rcv_requests_register", "register", core_rcv_request_total, .counter⟩,
  ⟨"core.rcv_requests_subscribe", "subscribe", core_rcv_request_total, .counter⟩,
  ⟨"core.rcv_requests_update", "update", core_rcv_request_total, .counter⟩,
  ⟨"core.unsupported_methods", "unsupported", core_rcv_request_total, .counter⟩,
  ⟨"core.drop_replies", "drop", core_reply_total, .counter⟩]

/-- Chunk of the static stat-to-metric table (see `statCatalog`). -/
def statCatalogB : List CatalogEntry := [
  ⟨"core.err_replies", "err", core_reply_total, .counter⟩,
  ⟨"core.fwd_replies", "fwd", core_reply_total, .counter⟩,
  ⟨"core.rcv_replies", "rcv", core_reply_total, .counter⟩,
  ⟨"core.rcv_replies_18x", "18x", core_rcv_reply_total, .counter⟩,
  ⟨"core.rcv_replies_1xx", "1xx", core_rcv_reply_total, .counter⟩,
  ⟨"core.rcv_replies_2xx", "2xx", core_rcv_reply_total, .counter⟩,
  ⟨"core.rcv_replies_3xx", "3xx", core_rcv_reply_total, .counter⟩,
  ⟨"core.rcv_replies_401", "401", core_rcv_reply_total, .counter⟩,
  ⟨"core.rcv_replies_404", "404", core_rcv_reply_total, .counter⟩,
  ⟨"core.rcv_replies_407", "407", core_rcv_reply_total, .counter⟩,
  ⟨"core.rcv_replies_408", "408", core_rcv_reply_total, .counter⟩,
  ⟨"core.rcv_replies_480", "480", core_rcv_reply_total, .counter⟩,
  ⟨"core.rcv_replies_486", "486", core_rcv_reply_total, .counter⟩,
  ⟨"core.rcv_replies_4xx", "4xx", core_rcv_reply_total, .counter⟩,
  ⟨"core.rcv_replies_5xx", "5xx", core_rcv_reply_total, .counter⟩,
  ⟨"core.rcv_replies_6xx", "6xx", core_rcv_reply_total, .counter⟩,
  ⟨"shmem.free_size", "free", shmem_bytes, .gauge⟩,
  ⟨"shmem.max_used_size", "max_used", shmem_bytes, .gauge⟩,
  ⟨"shmem.real_used_size", "real_used", shmem_bytes, .gauge⟩,
  ⟨"shmem.total_size", "total", shmem_bytes, .gauge⟩]

/-- Chunk of the static stat-to-metric table (see `statCatalog`). -/
def statCatalogC : List CatalogEntry := [
  ⟨"shmem.used_size", "used", shmem_bytes, .gauge⟩,
  ⟨"shmem.fragments", "", shmem_fragments, .gauge⟩,
  ⟨"dns.failed_dns_request", "", dns_failed, .counter⟩,
  ⟨"core.bad_URIs_rcvd", "", bad_uri, .counter⟩,
  ⟨"core.bad_msg_hdr", "", bad_msg_hdr, .counter⟩,
  ⟨"sl.1xx_replies", "1xx", sl_reply_total, .counter⟩,
  ⟨"sl.200_replies", "200", sl_reply_total, .counter⟩,
  ⟨"sl.202_replies", "202", sl_reply_total, .counter⟩,
  ⟨"sl.2xx_replies", "2xx", sl_reply_total, .counter⟩,
  ⟨"sl.300_replies", "300", sl_reply_total, .counter⟩,
  ⟨"sl.301_replies", "301", sl_reply_total, .counter⟩,
  ⟨"sl.302_replies", "302", sl_reply_total, .counter⟩,
  ⟨"sl.3xx_replies", "3xx", sl_reply_total, .counter⟩,
  ⟨"sl.400_replies", "400", sl_reply_total, .counter⟩,
  ⟨"sl.401_replies", "401", sl_reply_total, .counter⟩,
  ⟨"sl.403_replies", "403", sl_reply_total, .counter⟩,
  ⟨"sl.404_replies", "404", sl_reply_total, .counter⟩,
  ⟨"sl.407_replies", "407", sl_reply_total, .counter⟩,
  ⟨"sl.408_replies", "408", sl_reply_total, .counter⟩,
  ⟨"sl.483_replies", "483", sl_reply_total, .counter⟩]

/-- Chunk of the static stat-to-metric table (see `statCatalog`). -/
def statCatalogD : List CatalogEntry := [
  ⟨"sl.4xx_replies", "4xx", sl_reply_total, .counter⟩,
  ⟨"sl.500_replies", "500", sl_reply_total, .counter⟩,
  ⟨"sl.5xx_replies", "5xx", sl_reply_total, .counter⟩,
  ⟨"sl.6xx_replies", "6xx", sl_reply_total, .counter⟩,
  ⟨"sl.failures", "failure", sl_type_total, .counter⟩,
  ⟨"sl.received_ACKs", "received_ack", sl_type_total, .counter⟩,
  ⟨"sl.sent_err_replies", "sent_err_reply", sl_type_total, .counter⟩,
  ⟨"sl.sent_replies", "sent_reply", sl_type_total, .counter⟩,
  ⟨"sl.xxx_replies", "xxx_reply", sl_type_total, .counter⟩,
  ⟨"tcp.con_reset", "con_reset", tcp_total, .counter⟩,
  ⟨"tcp.con_timeout", "con_timeout", tcp_total, .counter⟩,
  ⟨"tcp.connect_failed", "connect_failed", tcp_total, .counter⟩,
  ⟨"tcp.connect_success", "connect_success", tcp_total, .counter⟩,
  ⟨"tcp.established", "established", tcp_total, .counter⟩,
  ⟨"tcp.local_reject", "local_reject", tcp_total, .counter⟩,
  ⟨"tcp.passive_open", "passive_open", tcp_total, .counter⟩,
  ⟨"tcp.send_timeout", "send_timeout", tcp_total, .counter⟩,
  ⟨"tcp.sendq_full", "sendq_full", tcp_total, .counter⟩,
  ⟨"tcp.current_opened_connections", "", tcp_connections, .gauge⟩,
  ⟨"tcp.current_write_queue_size", "", tcp_writequeue, .gauge⟩]

/-- Chunk of the static stat-to-metric table (see `statCatalog`). -/
def statCatalogE : List CatalogEntry := [
  ⟨"tmx.2xx_transactions", "2xx", tmx_code_total, .counter⟩,
  ⟨"tmx.3xx_transactions", "3xx", tmx_code_total, .counter⟩,
  ⟨"tmx.4xx_transactions", "4xx", tmx_code_total, .counter⟩,
  ⟨"tmx.5xx_transactions", "5xx", tmx_code_total, .counter⟩,
  ⟨"tmx.6xx_transactions", "6xx", tmx_code_total, .counter⟩,
  ⟨"tmx.UAC_transactions", "uac", tmx_type_total, .counter⟩,
  ⟨"tmx.UAS_transactions", "uas", tmx_type_total, .counter⟩,
  ⟨"tmx.active_transactions", "active", tmx, .gauge⟩,
  ⟨"tmx.inuse_transactions", "inuse", tmx, .gauge⟩,
  ⟨"tmx.rpl_absorbed", "absorbed", tmx_rpl_total, .counter⟩,
  ⟨"tmx.rpl_generated", "generated", tmx_rpl_total, .counter⟩,
  ⟨"tmx.rpl_received", "received", tmx_rpl_total, .counter⟩,
  ⟨"tmx.rpl_relayed", "relayed", tmx_rpl_total, .counter⟩,
  ⟨"tmx.rpl_sent", "sent", tmx_rpl_total, .counter⟩,
  ⟨"dialog.active_dialogs", "active_dialogs", dialog, .counter⟩,
  ⟨"dialog.early_dialogs", "early_dialogs", dialog, .counter⟩,
  ⟨"dialog.expired_dialogs", "expired_dialogs", dialog, .counter⟩,
  ⟨"dialog.failed_dialogs", "failed_dialogs", dialog, .counter⟩,
  ⟨"dialog.processed_dialogs", "processed_dialogs", dialog, .counter⟩]

/-- The static stat-to-metric table of `produceMetrics` (lines 376–503),
one entry per `convertStatToMetric` call, in source order (assembled in
chunks to keep elaboration cheap). -/
def statCatalog : List CatalogEntry :=
  statCatalogA ++ statCatalogB ++ statCatalogC ++ statCatalogD ++ statCatalogE

/-- The stat keys enumerated by the static catalog. -/
def catalogStatKeys : List String :=
  statCatalog.map CatalogEntry.statKey

/-- Embeds `produceMetrics` (lines 376–503): the sequence of
`convertStatToMetric` calls over the static table, samples collected in
call order. -/
def produceMetrics (completeStatMap : FlatStatMap) : List Metric :=
  statCatalog.foldl
    (fun acc e =>
      acc ++ convertStatToMetric completeStatMap e.statKey e.labelValue e.desc e.valueType)
    []

/-- The per-key body of the `convertScriptedMetrics` loop (lines
509–527): keys with the reserved `script.` prefix get the prefix
stripped, the remainder lower-cased into the metric name, the value kind
deduced from a `_total`/`_seconds`/`_bytes` suffix of the original
(still prefixed) key, and a zero-label descriptor synthesized on the
fly. -/
def scriptedStep (data : FlatStatMap) (k : String) : List Metric :=
  if goHasPre k "script." then
    let metricName := goToLower (goTrimPre k "script.")
    let valueType : ValueType :=
      if goHasSuf k "_total" || goHasSuf k "_seconds" || goHasSuf k "_bytes" then
        .counter
      else
        .gauge
    let description : Desc :=
      ⟨"kamailio_" ++ metricName, "Scripted metric " ++ metricName, []⟩
    convertStatToMetric data k "" description valueType
  else
    []

/-- Embeds `convertScriptedMetrics` (lines 508–528): iterate the keys of
the flat map, emitting via `scriptedStep`. -/
def convertScriptedMetrics (data : FlatStatMap) : List Metric :=
  data.foldl (fun acc p => acc ++ scriptedStep data p.1) []

/-- Embeds `convertPKGStatToMetric` (lines 357–373): parse the stored
decimal string (failures are skipped) and emit one gauge sample on the
`pkgmem_bytes` descriptor; `NewConstMetric` fails closed on a label-count
mismatch. -/
def convertPKGStatToMetric (value : String) (labels : List String) : List Metric :=
  match parseGoFloat value with
  | none => []
  | some valueFloat =>
    if labels.length = pkgmem_bytes.variableLabels.length then
      [⟨pkgmem_bytes, .gauge, valueFloat, labels⟩]
    else
      []

/-- The per-entry body of `producePKGMemMetrics` (lines 333–354): the
shared label values (entry, pid, rank) extended per sample kind, then the
five conversion calls in source order. -/
def producePKGMemEntry (e : MemoryEntry) : List Metric :=
  let labelValues := [e.entry, e.pid, e.rank]
  convertPKGStatToMetric e.used (labelValues ++ ["used"]) ++
  convertPKGStatToMetric e.free (labelValues ++ ["free"]) ++
  convertPKGStatToMetric e.realUsed (labelValues ++ ["real_used"]) ++
  convertPKGStatToMetric e.totalSize (labelValues ++ ["total"]) ++
  convertPKGStatToMetric e.totalFrags (labelValues ++ ["total_frags"])

/-- Embeds `producePKGMemMetrics` (lines 331–355): one `producePKGMemEntry`
per memory entry, in order. -/
def producePKGMemMetrics (memStatMap : List MemoryEntry) : List Metric :=
  memStatMap.foldl (fun acc e => acc ++ producePKGMemEntry e) []

/-! ## Helper lemmas -/

theorem lookupStat_nil (k' : String) : lookupStat [] k' = none := by
  simp [lookupStat]

theorem lookupStat_cons (a b : String) (rest : FlatStatMap) (k' : String) :
    lookupStat ((a, b) :: rest) k' =
      if a = k' then some b else lookupStat rest k' := by
  by_cases h : a = k' <;> simp [lookupStat, List.find?, h]

theorem lookupStat_insertStat (m : FlatStatMap) (k v k' : String) :
    lookupStat (insertStat m k v) k' = if k' = k then some v else lookupStat m k' := by
  induction m with
  | nil =>
    by_cases h : k' = k
    · subst h; simp [insertStat, lookupStat_cons]
    · have h' : ¬k = k' := fun hh => h hh.symm
      simp [insertStat, lookupStat_cons, lookupStat_nil, h, h']
  | cons p rest ih =>
    obtain ⟨pk, pv⟩ := p
    by_cases hpk : pk = k
    · subst hpk
      by_cases h : k' = pk
      · subst h; simp [insertStat, lookupStat_cons]
      · have h' : ¬pk = k' := fun hh => h hh.symm
        simp [insertStat, lookupStat_cons, h, h']
    · by_cases h : k' = k
      · subst h
        have h' : ¬pk = k' := hpk
        simp [insertStat, hpk, lookupStat_cons, h', ih]
      · simp [insertStat, hpk, lookupStat_cons, h, ih]

theorem eraseKey_nil (k : String) : eraseKey [] k = [] := rfl

theorem eraseKey_cons (a b k : String) (rest : FlatStatMap) :
    eraseKey ((a, b) :: rest) k =
      if a = k then eraseKey rest k else (a, b) :: eraseKey rest k := by
  by_cases h : a = k <;> simp [eraseKey, List.filter, h]

theorem lookupStat_eraseKey (m : FlatStatMap) (k k' : String) :
    lookupStat (eraseKey m k) k' = if k' = k then none else lookupStat m k' := by
  induction m with
  | nil => by_cases h : k' = k <;> simp [eraseKey_nil, lookupStat_nil, h]
  | cons p rest ih =>
    obtain ⟨pk, pv⟩ := p
    rw [eraseKey_cons]
    by_cases hpk : pk = k
    · rw [if_pos hpk, ih]
      by_cases h : k' = k
      · simp [h]
      · have h' : ¬pk = k' := fun hh => h (hh.symm.trans hpk)
        rw [if_neg h, if_neg h, lookupStat_cons, if_neg h']
    · rw [if_neg hpk, lookupStat_cons, ih]
      by_cases hp : pk = k'
      · have h : ¬k' = k := fun hh => hpk (hp.trans hh)
        rw [if_pos hp, if_neg h, lookupStat_cons, if_pos hp]
      · rw [if_neg hp]
        by_cases h : k' = k
        · rw [if_pos h, if_pos h]
        · rw [if_neg h, if_neg h, lookupStat_cons, if_neg hp]

theorem lookupStat_mem {m : FlatStatMap} {k v : String}
    (h : lookupStat m k = some v) : (k, v) ∈ m := by
  unfold lookupStat at h
  obtain ⟨p, hfind, hsnd⟩ := Option.map_eq_some'.mp h
  have hmem := List.mem_of_find?_eq_some hfind
  have hkey : p.1 = k := by simpa using List.find?_some hfind
  obtain ⟨pk, pv⟩ := p
  cases hkey
  cases hsnd
  exact hmem

theorem foldl_append_flatten {α β : Type} (f : α → List β) :
    ∀ (l : List α) (acc : List β),
      l.foldl (fun acc x => acc ++ f x) acc = acc ++ (l.map f).flatten := by
  intro l
  induction l with
  | nil => intro acc; simp
  | cons x xs ih => intro acc; simp [ih, List.append_assoc]

theorem produceMetrics_eq_flatten (m : FlatStatMap) :
    produceMetrics m =
      (statCatalog.map
        (fun e => convertStatToMetric m e.statKey e.labelValue e.desc e.valueType)).flatten := by
  simpa using
    foldl_append_flatten
      (fun e : CatalogEntry =>
        convertStatToMetric m e.statKey e.labelValue e.desc e.valueType)
      statCatalog []

theorem convertScriptedMetrics_eq_flatten (data : FlatStatMap) :
    convertScriptedMetrics data =
      (data.map (fun p => scriptedStep data p.1)).flatten := by
  simpa using
    foldl_append_flatten (fun p : String × String => scriptedStep data p.1) data []

theorem producePKGMemMetrics_eq_flatten (l : List MemoryEntry) :
    producePKGMemMetrics l = (l.map producePKGMemEntry).flatten := by
  simpa using foldl_append_flatten producePKGMemEntry l []

theorem convertStatToMetric_congr {m m' : FlatStatMap} {k : String}
    (h : lookupStat m k = lookupStat m' k) (lv : String) (d : Desc) (vt : ValueType) :
    convertStatToMetric m k lv d vt = convertStatToMetric m' k lv d vt := by
  unfold convertStatToMetric
  rw [h]

theorem produceMetrics_congr {m m' : FlatStatMap}
    (h : ∀ e ∈ statCatalog, lookupStat m e.statKey = lookupStat m' e.statKey) :
    produceMetrics m = produceMetrics m' := by
  rw [produceMetrics_eq_flatten, produceMetrics_eq_flatten]
  exact congrArg _ (List.map_congr_left fun e he =>
    convertStatToMetric_congr (h e he) e.labelValue e.desc e.valueType)

theorem applyMemItem_skip (m : MemoryEntry) (it : Item)
    (h : it.value.asInt = none ∨ it.key ∉ memFieldKeys) :
    applyMemItem m it = m := by
  unfold applyMemItem
  cases hint : it.value.asInt with
  | none => rfl
  | some n =>
    rcases h with h | h
    · rw [hint] at h; cases h
    · simp only []
      split <;>
        first
          | rfl
          | (exfalso; apply h; rename_i hk; rw [hk]; decide)

theorem getField_applyMemItem (m : MemoryEntry) (it : Item) (k : String)
    (hk : k ∈ memFieldKeys) (h : it.key = k → it.value.asInt = none) :
    getField (applyMemItem m it) k = getField m k := by
  unfold applyMemItem
  cases hint : it.value.asInt with
  | none => rfl
  | some n =>
    have hne : it.key ≠ k := fun hh => by rw [h hh] at hint; cases hint
    have hk8 : k = "entry" ∨ k = "pid" ∨ k = "rank" ∨ k = "used" ∨ k = "free" ∨
        k = "real_used" ∨ k = "total_size" ∨ k = "total_frags" := by
      simpa [memFieldKeys] using hk
    simp only []
    split <;>
      first
        | rfl
        | (rename_i hkey
           rcases hk8 with rfl | rfl | rfl | rfl | rfl | rfl | rfl | rfl <;>
             first
               | (exfalso; exact hne hkey)
               | rfl)

theorem getField_foldl (items : List Item) (k : String)
    (hk : k ∈ memFieldKeys)
    (h : ∀ it ∈ items, it.key = k → it.value.asInt = none) :
    ∀ e0 : MemoryEntry,
      getField (items.foldl applyMemItem e0) k = getField e0 k := by
  induction items with
  | nil => intro e0; rfl
  | cons it rest ih =>
    intro e0
    rw [List.foldl_cons,
      ih (fun j hj => h j (List.mem_cons_of_mem it hj)),
      getField_applyMemItem e0 it k hk (h it (List.mem_cons_self it rest))]

theorem goHasPre_append (p s : String) : goHasPre (p ++ s) p = true := by
  unfold goHasPre
  rw [String.data_append, List.isPrefixOf_iff_prefix]
  exact List.prefix_append p.data s.data

theorem goTrimPre_append (p s : String) : goTrimPre (p ++ s) p = s := by
  unfold goTrimPre
  rw [goHasPre_append, if_pos rfl, String.data_append, List.drop_left]

theorem goHasSuf_append (p s t : String) (h : goHasSuf s t = true) :
    goHasSuf (p ++ s) t = true := by
  unfold goHasSuf at h ⊢
  rw [String.data_append, List.isSuffixOf_iff_suffix]
  exact (List.isSuffixOf_iff_suffix.mp h).trans (List.suffix_append p.data s.data)

/-! ## Claims -/

/-- C1 counterexample: a collector configured with BOTH a non-empty
domain-socket path and a non-empty host dials TCP, not the domain socket —
the socket path does not take precedence. -/
theorem dialTarget_socketPath_no_precedence :
    ("/var/run/kamailio.sock" : String) ≠ "" ∧
      StatsCollector.dialTarget ⟨"/var/run/kamailio.sock", "localhost", 3012⟩ =
        DialTarget.tcpAddress "localhost:3012" := by
  constructor
  · decide
  · rfl

/-- C1 (amended): `execRPCCommand` connects over the local domain socket
exactly when the configured host is empty (regardless of the socket
path), and otherwise over TCP to `host:port`; the host, not the socket
path, selects the transport, so with both configured non-empty TCP is
used. -/
theorem dialTarget_host_selects_transport :
    ∀ c : StatsCollector,
      (c.kamailioHost = "" → c.dialTarget = DialTarget.unixSocket c.socketPath) ∧
      (c.kamailioHost ≠ "" →
        c.dialTarget =
          DialTarget.tcpAddress (c.kamailioHost ++ ":" ++ toString c.kamailioPort)) := by
  intro c
  constructor <;> intro h <;> simp [StatsCollector.dialTarget, h]

/-- C1 witness: the amended transport rule at two concrete
configurations. -/
theorem dialTarget_host_selects_transport_witness :
    StatsCollector.dialTarget ⟨"/run/kam.sock", "", 2049⟩ =
        DialTarget.unixSocket "/run/kam.sock" ∧
      StatsCollector.dialTarget ⟨"/run/kam.sock", "kamailio", 2049⟩ =
        DialTarget.tcpAddress ("kamailio" ++ ":" ++ toString (2049 : Int)) :=
  ⟨(dialTarget_host_selects_transport ⟨"/run/kam.sock", "", 2049⟩).1 rfl,
   (dialTarget_host_selects_transport ⟨"/run/kam.sock", "kamailio", 2049⟩).2 (by decide)⟩

/-- C2 (code bug): when the RPC invocation succeeds with ZERO records,
`fetchStats` does not return a map or an `Error` — the unchecked access
`records[0]` is a Go runtime panic (index out of range), aborting the
collection cycle. -/
theorem fetchStats_empty_records_crashes :
    fetchStats (Except.ok []) = FetchResult.crash := rfl

/-- C5 counterexample: a record whose `StructItems()` decode fails does
NOT make the enclosing fetch return an `Error` — both fetches succeed
with silently empty data (an empty flat map, an all-empty memory
entry). -/
theorem structItems_failure_not_an_error :
    fetchStats (Except.ok [⟨none⟩]) = FetchResult.ok [] ∧
      fetchPKGMemStats (Except.ok [⟨none⟩]) = Except.ok [emptyMemoryEntry] := by
  constructor <;> rfl

/-- C5 (amended): transport and packet-level decode failures surfaced by
`execRPCCommand` make each fetch return that `Error`, but a failure
turning a returned record into its structured items is discarded
(`items, _ := record.StructItems()`): the fetch succeeds and the record
contributes no items, yielding an empty map / an all-empty entry. -/
theorem structItems_failure_swallowed :
    ∀ (e : String) (r : Record) (rs : List Record), r.structItems = none →
      fetchStats (Except.error e) = FetchResult.err e ∧
      fetchPKGMemStats (Except.error e) = Except.error e ∧
      fetchStats (Except.ok (r :: rs)) = FetchResult.ok [] ∧
      fetchPKGMemStats (Except.ok [r]) = Except.ok [emptyMemoryEntry] := by
  intro e r rs h
  refine ⟨rfl, rfl, ?_, ?_⟩
  · simp [fetchStats, h, buildStatMap]
  · simp [fetchPKGMemStats, processRecord, h]

/-- C5 witness: the amended behaviour at a concrete error and a concrete
undecodable record. -/
theorem structItems_failure_swallowed_witness :
    fetchStats (Except.error "io timeout") = FetchResult.err "io timeout" ∧
      fetchPKGMemStats (Except.error "io timeout") = Except.error "io timeout" ∧
      fetchStats (Except.ok [⟨none⟩, ⟨some []⟩]) = FetchResult.ok [] ∧
      fetchPKGMemStats (Except.ok [⟨none⟩]) = Except.ok [emptyMemoryEntry] :=
  structItems_failure_swallowed "io timeout" ⟨none⟩ [⟨some []⟩] rfl

/-- C7: a well-formed memory entry (all eight fields integral decimal
numerals) yields exactly five gauge samples, all on the
`kamailio_pkg_bytes` descriptor, sharing the label values (entry, pid,
rank) and differing only in the fourth label, which ranges over exactly
used, free, real_used, total, total_frags. -/
theorem producePKGMemMetrics_five_gauges :
    ∀ (e : MemoryEntry) (a b c u f ru ts tf : Int),
      parseGoFloat e.entry = some a → parseGoFloat e.pid = some b →
      parseGoFloat e.rank = some c → parseGoFloat e.used = some u →
      parseGoFloat e.free = some f → parseGoFloat e.realUsed = some ru →
      parseGoFloat e.totalSize = some ts → parseGoFloat e.totalFrags = some tf →
      producePKGMemMetrics [e] =
        [⟨pkgmem_bytes, .gauge, u, [e.entry, e.pid, e.rank, "used"]⟩,
         ⟨pkgmem_bytes, .gauge, f, [e.entry, e.pid, e.rank, "free"]⟩,
         ⟨pkgmem_bytes, .gauge, ru, [e.entry, e.pid, e.rank, "real_used"]⟩,
         ⟨pkgmem_bytes, .gauge, ts, [e.entry, e.pid, e.rank, "total"]⟩,
         ⟨pkgmem_bytes, .gauge, tf, [e.entry, e.pid, e.rank, "total_frags"]⟩] := by
  intro e a b c u f ru ts tf ha hb hc hu hf hru hts htf
  simp [producePKGMemMetrics, producePKGMemEntry, convertPKGStatToMetric,
    hu, hf, hru, hts, htf, pkgmem_bytes]

/-- C7 witness: the five samples of the spec's concrete scenario entry. -/
theorem producePKGMemMetrics_five_gauges_witness :
    producePKGMemMetrics [⟨"0", "123", "1", "1000", "500", "900", "2000", "3"⟩] =
      [⟨pkgmem_bytes, .gauge, 1000, ["0", "123", "1", "used"]⟩,
       ⟨pkgmem_bytes, .gauge, 500, ["0", "123", "1", "free"]⟩,
       ⟨pkgmem_bytes, .gauge, 900, ["0", "123", "1", "real_used"]⟩,
       ⟨pkgmem_bytes, .gauge, 2000, ["0", "123", "1", "total"]⟩,
       ⟨pkgmem_bytes, .gauge, 3, ["0", "123", "1", "total_frags"]⟩] :=
  producePKGMemMetrics_five_gauges ⟨"0", "123", "1", "1000", "500", "900", "2000", "3"⟩
    0 123 1 1000 500 900 2000 3
    (by decide) (by decide) (by decide) (by decide)
    (by decide) (by decide) (by decide) (by decide)

/-- Auxiliary: folding the `fetchStats` loop over items none of which has
key `k` leaves the lookup of `k` unchanged. -/
theorem lookupStat_buildFold_ne (items : List Item) :
    ∀ (acc : FlatStatMap) (k : String), (∀ it ∈ items, it.key ≠ k) →
      lookupStat
        (items.foldl (fun m it => insertStat m it.key ((it.value.asString).getD "")) acc) k =
      lookupStat acc k := by
  induction items with
  | nil => intro acc k _; rfl
  | cons j rest ih =>
    intro acc k h
    rw [List.foldl_cons, ih _ k (fun it hit => h it (List.mem_cons_of_mem j hit)),
      lookupStat_insertStat]
    rw [if_neg (fun hh => h j (List.mem_cons_self j rest) hh.symm)]

/-- Auxiliary: with pairwise-distinct item keys, the `fetchStats` loop
stores each item's key with the string conversion of its value, the empty
string when the conversion fails. -/
theorem lookupStat_buildFold_mem (items : List Item) :
    ∀ (acc : FlatStatMap) (it : Item), it ∈ items → (items.map Item.key).Nodup →
      lookupStat
        (items.foldl (fun m it => insertStat m it.key ((it.value.asString).getD "")) acc)
        it.key =
      some ((it.value.asString).getD "") := by
  induction items with
  | nil => intro _ it hit; cases hit
  | cons j rest ih =>
    intro acc it hit hnd
    rw [List.map_cons, List.nodup_cons] at hnd
    rcases List.mem_cons.mp hit with rfl | hit'
    · rw [List.foldl_cons,
        lookupStat_buildFold_ne rest _ it.key
          (fun j' hj' hj'k => hnd.1 (hj'k ▸ List.mem_map_of_mem Item.key hj')),
        lookupStat_insertStat, if_pos rfl]
    · exact ih _ it hit' hnd.2

/-- Auxiliary: the `fetchStats` loop never removes a key that is already
present. -/
theorem lookupStat_buildFold_isSome_mono (items : List Item) :
    ∀ (acc : FlatStatMap) (k : String), (lookupStat acc k).isSome = true →
      (lookupStat
        (items.foldl (fun m it => insertStat m it.key ((it.value.asString).getD "")) acc)
        k).isSome = true := by
  induction items with
  | nil => intro _ _ h; exact h
  | cons j rest ih =>
    intro acc k h
    rw [List.foldl_cons]
    apply ih
    rw [lookupStat_insertStat]
    by_cases hk : k = j.key
    · rw [if_pos hk]; rfl
    · rw [if_neg hk]; exact h

/-- Auxiliary: every item key ends up present in the map built by the
`fetchStats` loop. -/
theorem lookupStat_buildFold_isSome (items : List Item) :
    ∀ (acc : FlatStatMap) (it : Item), it ∈ items →
      (lookupStat
        (items.foldl (fun m it => insertStat m it.key ((it.value.asString).getD "")) acc)
        it.key).isSome = true := by
  induction items with
  | nil => intro _ it hit; cases hit
  | cons j rest ih =>
    intro acc it hit
    rcases List.mem_cons.mp hit with rfl | hit'
    · rw [List.foldl_cons]
      apply lookupStat_buildFold_isSome_mono
      rw [lookupStat_insertStat, if_pos rfl]
      rfl
    · rw [List.foldl_cons]
      exact ih _ it hit'

/-- C6 counterexample: an item whose value fails string conversion is NOT
skipped — `value, _ := item.Value.String()` leaves the zero value `""`,
and `result[item.Key] = value` inserts it, so the key is present with a
placeholder value rather than absent. -/
theorem failed_conversion_key_present :
    fetchStats (Except.ok [⟨some [⟨"k", WireValue.structVal⟩]⟩]) =
        FetchResult.ok [("k", "")] ∧
      lookupStat [("k", "")] "k" = some "" := by
  constructor <;> rfl

/-- C6 (amended): `fetchStats` inserts EVERY item's key into the flat
map — with the converted string when the value converts, and with the
empty string (the Go zero value of the discarded conversion) when it
fails; in particular, for a record with pairwise-distinct item keys the
map binds each key to exactly that value, and no item key is ever
absent. -/
theorem buildStatMap_inserts_every_key :
    ∀ (items : List Item),
      (∀ it ∈ items, (lookupStat (buildStatMap items) it.key).isSome = true) ∧
      ((items.map Item.key).Nodup →
        ∀ it ∈ items,
          lookupStat (buildStatMap items) it.key = some ((it.value.asString).getD "")) := by
  intro items
  constructor
  · intro it hit
    exact lookupStat_buildFold_isSome items [] it hit
  · intro hnd it hit
    exact lookupStat_buildFold_mem items [] it hit hnd

/-- C6 witness: the amended insertion behaviour on a concrete record with
one convertible and one unconvertible item. -/
theorem buildStatMap_inserts_every_key_witness :
    lookupStat (buildStatMap [⟨"a", WireValue.str "1"⟩, ⟨"b", WireValue.structVal⟩]) "b" =
      some "" :=
  (buildStatMap_inserts_every_key [⟨"a", WireValue.str "1"⟩, ⟨"b", WireValue.structVal⟩]).2
    (by decide) ⟨"b", WireValue.structVal⟩ (by decide)

/-- Auxiliary: `getField` of the freshly allocated entry is always the
zero value. -/
theorem getField_empty (k : String) : getField emptyMemoryEntry k = "" := by
  unfold getField
  split <;> rfl

/-- C9: `fetchPKGMemStats` returns an `Error` exactly when the RPC
invocation does; every successfully returned record sequence normalizes
successfully; an item whose wire value is not an integer, or whose key is
not one of the eight recognized field keys, is skipped for that item
only; and a field never set from a recognized item remains the empty
string. -/
theorem fetchPKGMemStats_error_only_from_rpc :
    (∀ e : String, fetchPKGMemStats (Except.error e) = Except.error e) ∧
    (∀ rs : List Record, (fetchPKGMemStats (Except.ok rs)).isOk = true) ∧
    (∀ (m : MemoryEntry) (it : Item),
      it.value.asInt = none ∨ it.key ∉ memFieldKeys → applyMemItem m it = m) ∧
    (∀ (r : Record) (k : String), k ∈ memFieldKeys →
      (∀ it ∈ r.structItems.getD [], it.key = k → it.value.asInt = none) →
      getField (processRecord r) k = "") := by
  refine ⟨fun e => rfl, fun rs => rfl, applyMemItem_skip, ?_⟩
  intro r k hk h
  unfold processRecord
  rw [getField_foldl _ k hk h, getField_empty]

/-- C9 witness: the components at concrete inputs — a concrete RPC error
propagates, a record list normalizes, an unrecognized-key item and a
non-integer item are skipped, and the `used` field of a record that never
sets it stays empty. -/
theorem fetchPKGMemStats_error_only_from_rpc_witness :
    fetchPKGMemStats (Except.error "conn refused") = Except.error "conn refused" ∧
      (fetchPKGMemStats (Except.ok [⟨some [⟨"pid", WireValue.int 7⟩]⟩])).isOk = true ∧
      applyMemItem emptyMemoryEntry ⟨"bogus", WireValue.int 3⟩ = emptyMemoryEntry ∧
      applyMemItem emptyMemoryEntry ⟨"used", WireValue.str "12"⟩ = emptyMemoryEntry ∧
      getField (processRecord ⟨some [⟨"pid", WireValue.int 7⟩]⟩) "used" = "" :=
  ⟨fetchPKGMemStats_error_only_from_rpc.1 "conn refused",
   fetchPKGMemStats_error_only_from_rpc.2.1 [⟨some [⟨"pid", WireValue.int 7⟩]⟩],
   fetchPKGMemStats_error_only_from_rpc.2.2.1 _ _ (Or.inr (by decide)),
   fetchPKGMemStats_error_only_from_rpc.2.2.1 _ _ (Or.inl rfl),
   fetchPKGMemStats_error_only_from_rpc.2.2.2 _ _ (by decide) (by decide)⟩

/-- Auxiliary: a record none of whose items is a recognized integer field
folds to the all-empty entry. -/
theorem foldl_applyMemItem_id (items : List Item) :
    ∀ e0 : MemoryEntry,
      (∀ it ∈ items, it.value.asInt = none ∨ it.key ∉ memFieldKeys) →
      items.foldl applyMemItem e0 = e0 := by
  induction items with
  | nil => intro _ _; rfl
  | cons j rest ih =>
    intro e0 h
    rw [List.foldl_cons, applyMemItem_skip e0 j (h j (List.mem_cons_self j rest))]
    exact ih e0 (fun it hit => h it (List.mem_cons_of_mem j hit))

/-- C10: `fetchPKGMemStats` appends exactly one `MemoryEntry` per record
the RPC invoker returns; a record with no recognized integer item yields
the all-empty entry; and such an entry produces zero memory samples
(every per-field float parse fails on `""`), so the sample count can be
smaller than five times the entry count. -/
theorem fetchPKGMemStats_one_entry_per_record :
    (∀ (rs : List Record) (l : List MemoryEntry),
      fetchPKGMemStats (Except.ok rs) = Except.ok l → l.length = rs.length) ∧
    (∀ r : Record,
      (∀ it ∈ r.structItems.getD [], it.value.asInt = none ∨ it.key ∉ memFieldKeys) →
      processRecord r = emptyMemoryEntry) ∧
    producePKGMemEntry emptyMemoryEntry = [] ∧
    producePKGMemMetrics [emptyMemoryEntry] = [] := by
  refine ⟨?_, ?_, rfl, rfl⟩
  · intro rs l h
    have h' : (Except.ok (rs.map processRecord) : Except String (List MemoryEntry)) =
        Except.ok l := h
    cases h'
    exact List.length_map rs processRecord
  · intro r h
    unfold processRecord
    exact foldl_applyMemItem_id _ emptyMemoryEntry h

/-- C10 witness: one undecodable record still yields exactly one (empty)
entry, and a record of unrecognized items folds to the empty entry. -/
theorem fetchPKGMemStats_one_entry_per_record_witness :
    ([emptyMemoryEntry].length = [Record.mk none].length) ∧
      processRecord ⟨some [⟨"x", WireValue.str "y"⟩]⟩ = emptyMemoryEntry :=
  ⟨fetchPKGMemStats_one_entry_per_record.1 [Record.mk none] [emptyMemoryEntry] rfl,
   fetchPKGMemStats_one_entry_per_record.2.1 ⟨some [⟨"x", WireValue.str "y"⟩]⟩ (by decide)⟩

/-- Auxiliary Bool fact: disjuncts that each imply a corresponding
disjunct of the right-hand side are absorbed. -/
theorem bool_or_absorb (a' b' c' a b c : Bool)
    (ha : a' = true → a = true) (hb : b' = true → b = true)
    (hc : c' = true → c = true) :
    (a' || b' || c' || (a || b || c)) = (a || b || c) := by
  cases a' <;> cases b' <;> cases c' <;> simp_all

/-- C4: for every flat-map key of the form `script.X` whose value parses
as a float, the scripted translator emits exactly one zero-label sample
named `kamailio_` followed by `X` lower-cased, whose kind is counter if
`X` or its prefixed form ends in `_total`, `_seconds` or `_bytes`, and
gauge otherwise. -/
theorem scriptedStep_emits_one_sample :
    ∀ (data : FlatStatMap) (X v : String) (x : Int),
      lookupStat data ("script." ++ X) = some v → parseGoFloat v = some x →
      scriptedStep data ("script." ++ X) =
        [⟨⟨"kamailio_" ++ goToLower X, "Scripted metric " ++ goToLower X, []⟩,
          (if goHasSuf X "_total" || goHasSuf X "_seconds" || goHasSuf X "_bytes" ||
              (goHasSuf ("script." ++ X) "_total" || goHasSuf ("script." ++ X) "_seconds" ||
                goHasSuf ("script." ++ X) "_bytes")
            then ValueType.counter else ValueType.gauge),
          x, []⟩] := by
  intro data X v x hl hp
  have habsorb :
      (goHasSuf X "_total" || goHasSuf X "_seconds" || goHasSuf X "_bytes" ||
        (goHasSuf ("script." ++ X) "_total" || goHasSuf ("script." ++ X) "_seconds" ||
          goHasSuf ("script." ++ X) "_bytes")) =
      (goHasSuf ("script." ++ X) "_total" || goHasSuf ("script." ++ X) "_seconds" ||
        goHasSuf ("script." ++ X) "_bytes") := by
    simpa [Bool.or_assoc] using
      bool_or_absorb (goHasSuf X "_total") (goHasSuf X "_seconds") (goHasSuf X "_bytes")
        (goHasSuf ("script." ++ X) "_total") (goHasSuf ("script." ++ X) "_seconds")
        (goHasSuf ("script." ++ X) "_bytes")
        (goHasSuf_append "script." X "_total")
        (goHasSuf_append "script." X "_seconds")
        (goHasSuf_append "script." X "_bytes")
  rw [habsorb]
  unfold scriptedStep
  rw [goHasPre_append, goTrimPre_append]
  simp only [if_true]
  unfold convertStatToMetric
  rw [hl]
  simp [hp]

/-- C4 witness: the spec's concrete scripted key emits one zero-label
counter sample. -/
theorem scriptedStep_emits_one_sample_witness :
    scriptedStep [("script.custom_total", "5")] ("script." ++ "custom_total") =
      [⟨⟨"kamailio_" ++ goToLower "custom_total",
          "Scripted metric " ++ goToLower "custom_total", []⟩,
        (if goHasSuf "custom_total" "_total" || goHasSuf "custom_total" "_seconds" ||
            goHasSuf "custom_total" "_bytes" ||
            (goHasSuf ("script." ++ "custom_total") "_total" ||
              goHasSuf ("script." ++ "custom_total") "_seconds" ||
              goHasSuf ("script." ++ "custom_total") "_bytes")
          then ValueType.counter else ValueType.gauge),
        5, []⟩] :=
  scriptedStep_emits_one_sample [("script.custom_total", "5")] "custom_total" "5" 5
    (by decide) (by decide)

/-- Auxiliary: dropping every binding of a key whose per-key emission is
empty does not change the flattened emissions. -/
theorem flatten_eraseKey (l : FlatStatMap) (k : String) (f : String → List Metric)
    (h : f k = []) :
    ((eraseKey l k).map (fun p => f p.1)).flatten = (l.map (fun p => f p.1)).flatten := by
  induction l with
  | nil => rfl
  | cons p rest ih =>
    obtain ⟨pk, pv⟩ := p
    rw [eraseKey_cons]
    by_cases hpk : pk = k
    · rw [if_pos hpk, ih, List.map_cons, List.flatten_cons, hpk, h, List.nil_append]
    · rw [if_neg hpk, List.map_cons, List.map_cons, List.flatten_cons, List.flatten_cons, ih]

/-- Auxiliary: the per-key scripted emission depends on the flat map only
through the lookup of that key. -/
theorem scriptedStep_congr {m m' : FlatStatMap} (q : String)
    (h : lookupStat m q = lookupStat m' q) : scriptedStep m q = scriptedStep m' q := by
  unfold scriptedStep
  cases hq : goHasPre q "script."
  · simp [hq]
  · simp only [hq, if_true]
    exact convertStatToMetric_congr h "" _ _

/-- C8: a flat-map key that is neither one of the stat keys enumerated in
the static catalog nor prefixed `script.` contributes no metric sample:
removing all its bindings changes neither the well-known nor the scripted
translator's output. -/
theorem unknown_keys_emit_nothing :
    ∀ (m : FlatStatMap) (k : String), k ∉ catalogStatKeys →
      goHasPre k "script." = false →
      produceMetrics (eraseKey m k) = produceMetrics m ∧
      convertScriptedMetrics (eraseKey m k) = convertScriptedMetrics m := by
  intro m k hcat hpre
  constructor
  · apply produceMetrics_congr
    intro e he
    have hmem : e.statKey ∈ catalogStatKeys := List.mem_map_of_mem CatalogEntry.statKey he
    rw [lookupStat_eraseKey, if_neg (fun hh : e.statKey = k => hcat (hh ▸ hmem))]
  · have hstep : ∀ q : String, scriptedStep (eraseKey m k) q = scriptedStep m q := by
      intro q
      by_cases hq : q = k
      · subst hq
        simp [scriptedStep, hpre]
      · exact scriptedStep_congr q (by rw [lookupStat_eraseKey, if_neg hq])
    rw [convertScriptedMetrics_eq_flatten, convertScriptedMetrics_eq_flatten,
      List.map_congr_left (fun p _ => hstep p.1)]
    exact flatten_eraseKey m k (fun q => scriptedStep m q) (by simp [scriptedStep, hpre])

/-- C8 witness: removing a key unknown to the catalog and unprefixed
changes no emission of a concrete map. -/
theorem unknown_keys_emit_nothing_witness :
    produceMetrics (eraseKey [("foo", "1"), ("bar.baz", "2")] "bar.baz") =
        produceMetrics [("foo", "1"), ("bar.baz", "2")] ∧
      convertScriptedMetrics (eraseKey [("foo", "1"), ("bar.baz", "2")] "bar.baz") =
        convertScriptedMetrics [("foo", "1"), ("bar.baz", "2")] :=
  unknown_keys_emit_nothing [("foo", "1"), ("bar.baz", "2")] "bar.baz"
    (by decide) (by decide)

/-- Auxiliary: the lookup of a singleton binding. -/
theorem lookupStat_single (k v : String) : lookupStat [(k, v)] k = some v := by
  rw [lookupStat_cons, if_pos rfl]

/-- Auxiliary: flattening per-key emissions that are empty except at one
key (present exactly once) yields that key's single sample. -/
theorem flatten_if_single (l : FlatStatMap) (K : String) (s : Metric) :
    (l.map Prod.fst).Nodup → K ∈ l.map Prod.fst →
    (l.map (fun p => if p.1 = K then [s] else [])).flatten = [s] := by
  induction l with
  | nil => intro _ h; cases h
  | cons p rest ih =>
    intro hnd hmem
    rw [List.map_cons, List.nodup_cons] at hnd
    rw [List.map_cons, List.flatten_cons]
    rw [List.map_cons] at hmem
    rcases List.mem_cons.mp hmem with heq | hmem'
    · rw [if_pos heq.symm]
      have hrest : (rest.map (fun p => if p.1 = K then [s] else [])).flatten = [] := by
        rw [List.flatten_eq_nil_iff]
        intro l' hl'
        obtain ⟨q, hq, rfl⟩ := List.mem_map.mp hl'
        rw [if_neg]
        intro hqk
        exact hnd.1 (heq ▸ hqk ▸ List.mem_map_of_mem Prod.fst hq)
      rw [hrest]
      rfl
    · rw [if_neg (fun h : p.1 = K => hnd.1 (h ▸ hmem')), List.nil_append]
      exact ih hnd.2 hmem'

set_option maxRecDepth 10000 in
/-- C3 counterexample: on the spec's scenario map, none of the three
emitted samples is named `kamailio_core_rcv_request_total` — the
`core.rcv_requests` catalog entry targets `kamailio_core_request_total`
instead. -/
theorem scenario_metric_name_counterexample :
    (∀ s ∈ produceMetrics
          [("core.rcv_requests", "42"), ("sl.200_replies", "10"),
            ("script.custom_total", "5")] ++
        convertScriptedMetrics
          [("core.rcv_requests", "42"), ("sl.200_replies", "10"),
            ("script.custom_total", "5")],
        s.desc.fqName ≠ "kamailio_core_rcv_request_total") ∧
      (produceMetrics
          [("core.rcv_requests", "42"), ("sl.200_replies", "10"),
            ("script.custom_total", "5")] ++
        convertScriptedMetrics
          [("core.rcv_requests", "42"), ("sl.200_replies", "10"),
            ("script.custom_total", "5")]).length = 3 := by
  decide

set_option maxRecDepth 10000 in
/-- C3 (amended): a flat map carrying `core.rcv_requests = 42`,
`sl.200_replies = 10` and `script.custom_total = 5` and no other catalog
or script-prefixed keys yields exactly three counter samples:
`kamailio_core_request_total{method="rcv"} = 42` (not
`kamailio_core_rcv_request_total`), `kamailio_sl_reply_total{code="200"}
= 10` and `kamailio_custom_total = 5`. -/
theorem scenario_emits_three_counters :
    ∀ m : FlatStatMap, (m.map Prod.fst).Nodup →
      lookupStat m "core.rcv_requests" = some "42" →
      lookupStat m "sl.200_replies" = some "10" →
      lookupStat m "script.custom_total" = some "5" →
      (∀ p ∈ m, p.1 ≠ "core.rcv_requests" → p.1 ≠ "sl.200_replies" →
        p.1 ≠ "script.custom_total" →
        p.1 ∉ catalogStatKeys ∧ goHasPre p.1 "script." = false) →
      produceMetrics m ++ convertScriptedMetrics m =
        [⟨core_request_total, .counter, 42, ["rcv"]⟩,
         ⟨sl_reply_total, .counter, 10, ["200"]⟩,
         ⟨⟨"kamailio_custom_total", "Scripted metric custom_total", []⟩,
           .counter, 5, []⟩] := by
  intro m hnd h1 h2 h3 hjunk
  have hprod : produceMetrics m =
      [⟨core_request_total, .counter, 42, ["rcv"]⟩,
       ⟨sl_reply_total, .counter, 10, ["200"]⟩] := by
    have hcongr : produceMetrics m =
        produceMetrics
          [("core.rcv_requests", "42"), ("sl.200_replies", "10"),
            ("script.custom_total", "5")] := by
      apply produceMetrics_congr
      intro e he
      have hk : e.statKey ∈ catalogStatKeys :=
        List.mem_map_of_mem CatalogEntry.statKey he
      by_cases ha : e.statKey = "core.rcv_requests"
      · rw [ha, h1]; decide
      · by_cases hb : e.statKey = "sl.200_replies"
        · rw [hb, h2]; decide
        · have hc : e.statKey ≠ "script.custom_total" := by
            intro hcc
            rw [hcc] at hk
            revert hk
            decide
          have hmnone : lookupStat m e.statKey = none := by
            cases hval : lookupStat m e.statKey with
            | none => rfl
            | some v =>
              exact absurd hk (hjunk _ (lookupStat_mem hval) ha hb hc).1
          rw [hmnone, lookupStat_cons, if_neg (fun hh => ha hh.symm),
            lookupStat_cons, if_neg (fun hh => hb hh.symm),
            lookupStat_cons, if_neg (fun hh => hc hh.symm), lookupStat_nil]
    rw [hcongr]
    decide
  have hscript : convertScriptedMetrics m =
      [⟨⟨"kamailio_custom_total", "Scripted metric custom_total", []⟩,
        .counter, 5, []⟩] := by
    rw [convertScriptedMetrics_eq_flatten]
    have hKmem : "script.custom_total" ∈ m.map Prod.fst :=
      List.mem_map_of_mem Prod.fst (lookupStat_mem h3)
    have hstep : ∀ p ∈ m, scriptedStep m p.1 =
        if p.1 = "script.custom_total" then
          [⟨⟨"kamailio_custom_total", "Scripted metric custom_total", []⟩,
            .counter, 5, []⟩]
        else [] := by
      intro p hp
      by_cases hpK : p.1 = "script.custom_total"
      · rw [if_pos hpK, hpK,
          scriptedStep_congr "script.custom_total"
            (h3.trans (lookupStat_single "script.custom_total" "5").symm)]
        decide
      · rw [if_neg hpK]
        by_cases hA : p.1 = "core.rcv_requests"
        · rw [hA]
          simp [scriptedStep, (by decide : goHasPre "core.rcv_requests" "script." = false)]
        · by_cases hB : p.1 = "sl.200_replies"
          · rw [hB]
            simp [scriptedStep, (by decide : goHasPre "sl.200_replies" "script." = false)]
          · simp [scriptedStep, (hjunk p hp hA hB hpK).2]
    rw [List.map_congr_left hstep]
    exact flatten_if_single m "script.custom_total" _ hnd hKmem
  rw [hprod, hscript]
  rfl

/-- C3 witness: the amended sample set on the spec's concrete scenario
map. -/
theorem scenario_emits_three_counters_witness :
    produceMetrics
        [("core.rcv_requests", "42"), ("sl.200_replies", "10"),
          ("script.custom_total", "5")] ++
      convertScriptedMetrics
        [("core.rcv_requests", "42"), ("sl.200_replies", "10"),
          ("script.custom_total", "5")] =
      [⟨core_request_total, .counter, 42, ["rcv"]⟩,
       ⟨sl_reply_total, .counter, 10, ["200"]⟩,
       ⟨⟨"kamailio_custom_total", "Scripted metric custom_total", []⟩,
         .counter, 5, []⟩] :=
  scenario_emits_three_counters
    [("core.rcv_requests", "42"), ("sl.200_replies", "10"),
      ("script.custom_total", "5")]
    (by decide) (by decide) (by decide) (by decide) (by decide)
